import Mathlib

/-!
Verification of the core of the stringy/flexstr string library.

A Rust `&str` is modelled as the list of its UTF-8 bytes (`Str`).  The core
value type `FlexStr` is a tagged union of a static reference, an inline byte
buffer, and a pluggable heap storage backend.  Storage backends (Rc, Arc,
owned/boxed strings) are modelled by the `Storage` class: their observable
state is exactly the string content they hold, construction and cloning
preserve the content.

The modules `inline.rs`, `builder.rs` and `traits.rs` of the main crate are
not among the sources; where a definition comes from those files it is
modelled from the specification and marked `Modelled from the spec:` in its
doc comment.  Everything else is translated directly from `src/src/lib.rs`
and the generated constructor file `src/generate/src/impls.rs`.
-/

set_option autoImplicit false

namespace Stringy

/-- A Rust string slice, modelled as its sequence of UTF-8 bytes. -/
abbrev Str : Type := List Nat

/-- Inline capacity in bytes: `STRING_SIZED_INLINE` is 22 on 64-bit platforms
(three machine words minus the discriminant and the length byte). -/
def inlineCapacity : Nat := 22

/-- Storage backend capability contract (spec section 4.3): construct from
borrowed data, clone, and dereference to the heap string content.  The laws
say that the observable content survives construction and cloning, which
holds for all three concrete backends of the library. -/
class Storage (T : Type) where
  fromStr : Str → T
  toStr : T → Str
  clone : T → T
  toStr_fromStr : ∀ s : Str, toStr (fromStr s) = s
  toStr_clone : ∀ t : T, toStr (clone t) = toStr t

/-- The single-owner reference-counted backend, Rc of str.  Its observable
state is the string content; cloning bumps a count and shares the content. -/
structure RcStr where
  val : Str

instance : Storage RcStr where
  fromStr := RcStr.mk
  toStr := RcStr.val
  clone := fun t => t
  toStr_fromStr := fun _ => rfl
  toStr_clone := fun _ => rfl

/-- The atomically reference-counted backend, Arc of str. -/
structure ArcStr where
  val : Str

instance : Storage ArcStr where
  fromStr := ArcStr.mk
  toStr := ArcStr.val
  clone := fun t => t
  toStr_fromStr := fun _ => rfl
  toStr_clone := fun _ => rfl

/-- The exclusive owning backend (boxed string): clone duplicates the bytes,
the duplicate holds the same content. -/
structure BoxStr where
  val : Str

instance : Storage BoxStr where
  fromStr := BoxStr.mk
  toStr := BoxStr.val
  clone := fun t => BoxStr.mk t.val
  toStr_fromStr := fun _ => rfl
  toStr_clone := fun _ => rfl

/-- Modelled from the spec: the inline buffer construction (section 4.1,
`InlineFlexStr::try_new`; the file src/src/inline.rs is absent from the
sources).  It succeeds iff the data's byte length is at most the capacity,
copying the bytes verbatim; on failure it hands back the original input
untouched. -/
def InlineFlexStr.try_new (s : Str) : Except Str Str :=
  if s.length ≤ inlineCapacity then .ok s else .error s

/-- Modelled from the spec: in-place inline concatenation (section 4.1,
`InlineFlexStr::try_concat`; src/src/inline.rs is absent).  It checks that the
combined length fits before writing; when it fits it appends in place
(returning the grown buffer), otherwise it leaves the buffer completely
unmodified (returning none, the false of the Rust signature). -/
def InlineFlexStr.try_concat (buf s : Str) : Option Str :=
  if buf.length + s.length ≤ inlineCapacity then some (buf ++ s) else none

/-- The core tagged union of src/src/lib.rs (FlexStrInner, lines 82-90,
newtype-wrapped as FlexStr at line 94): a wrapped string literal, an inlined
string, or a heap storage handle. -/
inductive FlexStr (T : Type) where
  | Static (s : Str)
  | Inlined (s : Str)
  | Heap (h : T)

namespace FlexStr

variable {T T2 : Type}

/-- FlexStr::from_static (lib.rs lines 104-107): wrap a static reference. -/
def from_static (s : Str) : FlexStr T :=
  .Static s

/-- FlexStr::try_inline (lib.rs lines 111-117): attempt inline construction
via InlineFlexStr::try_new, passing the failure through. -/
def try_inline (s : Str) : Except Str (FlexStr T) :=
  match InlineFlexStr.try_new s with
  | .ok t => .ok (.Inlined t)
  | .error e => .error e

/-- FlexStr::heap (lib.rs lines 121-127): force heap storage, no inline
attempt. -/
def heap [Storage T] (s : Str) : FlexStr T :=
  .Heap (Storage.fromStr s)

/-- Deref for FlexStr (lib.rs lines 181-188): the semantic string view,
dispatching on the active variant. -/
def deref [Storage T] : FlexStr T → Str
  | .Static s => s
  | .Inlined s => s
  | .Heap h => Storage.toStr h

/-- FlexStr::is_static (lib.rs lines 148-151). -/
def is_static : FlexStr T → Bool
  | .Static _ => true
  | _ => false

/-- FlexStr::is_inlined (lib.rs lines 154-157). -/
def is_inlined : FlexStr T → Bool
  | .Inlined _ => true
  | _ => false

/-- FlexStr::is_heap (lib.rs lines 160-163). -/
def is_heap : FlexStr T → Bool
  | .Heap _ => true
  | _ => false

/-- The derived Clone of FlexStrInner (lib.rs line 82): Static copies the
reference, Inlined copies the fixed buffer, Heap clones the backend handle. -/
def clone [Storage T] : FlexStr T → FlexStr T
  | .Static s => .Static s
  | .Inlined s => .Inlined s
  | .Heap h => .Heap (Storage.clone h)

/-- PartialEq between FlexStr values over possibly different backends
(lib.rs lines 223-240): str::eq of the two dereferenced views. -/
def beqFlex [Storage T] [Storage T2] (a : FlexStr T) (b : FlexStr T2) : Bool :=
  a.deref == b.deref

/-- Hash for FlexStr (lib.rs lines 213-221): the hasher is fed the
dereferenced str view, never the discriminant. -/
def hashWith [Storage T] (hasher : Str → Nat) (a : FlexStr T) : Nat :=
  hasher a.deref

/-- From String for FlexStr (lib.rs lines 555-579): try to inline the owned
string, on failure wrap it in heap storage. -/
def fromString [Storage T] (s : Str) : FlexStr T :=
  if s.length ≤ inlineCapacity then .Inlined s else .Heap (Storage.fromStr s)

/-- Modelled from the spec: the general from-reference smart constructor
(section 4.2; FlexStrInner::from_ref of the flexstr sub-crate is absent from
the sources, only its generated wrapper in src/generate/src/impls.rs lines
305-319 is).  Priority order: empty input returns the shared empty Static
singleton; then an inline attempt; then the backend's from-borrowed
operation. -/
def from_ref [Storage T] (s : Str) : FlexStr T :=
  if s.length = 0 then .Static []
  else if s.length ≤ inlineCapacity then .Inlined s
  else .Heap (Storage.fromStr s)

end FlexStr

/-- UTF-8 encoding of a Unicode scalar value, as Rust's char::encode_utf8
produces it: one byte below 0x80, two below 0x800, three below 0x10000 and
four beyond. -/
def utf8Encode (n : Nat) : Str :=
  if n < 128 then [n]
  else if n < 2048 then [192 + n / 64, 128 + n % 64]
  else if n < 65536 then [224 + n / 4096, 128 + n / 64 % 64, 128 + n % 64]
  else [240 + n / 262144, 128 + n / 4096 % 64, 128 + n / 64 % 64, 128 + n % 64]

/-- Modelled from the spec: the builder state machine (section 4.4;
src/src/builder.rs is absent from the sources).  Small is the initial
inline-sized buffer, Regular the grown heap-backed appendable buffer, Large
an already-owned string handed through directly. -/
inductive FlexStrBuilder where
  | Small (buf : Str)
  | Regular (buf : Str)
  | Large (s : Str)

namespace FlexStrBuilder

/-- Modelled from the spec: FlexStrBuilder::new, the initial Small state with
a zero-length inline buffer. -/
def new : FlexStrBuilder :=
  .Small []

/-- Modelled from the spec: FlexStrBuilder::with_capacity starts Small when
the requested capacity fits the inline buffer and in the grown Regular state
otherwise. -/
def with_capacity (cap : Nat) : FlexStrBuilder :=
  if cap ≤ inlineCapacity then .Small [] else .Regular []

/-- Modelled from the spec: the formatting-trait write into the builder
(section 4.4; src/src/builder.rs is absent).  A Small buffer appends in place
while the data fits; the instant a write would overflow the capacity the
builder transitions to Regular, copying the existing inline bytes once and
appending the new data; Regular and Large append to their growable buffers.
The result type mirrors the Rust fmt::Result; the spec defines the write to
never fail because the buffer can always grow. -/
def write_str : FlexStrBuilder → Str → Except Unit FlexStrBuilder
  | .Small buf, s =>
    match InlineFlexStr.try_concat buf s with
    | some buf2 => .ok (.Small buf2)
    | none => .ok (.Regular (buf ++ s))
  | .Regular buf, s => .ok (.Regular (buf ++ s))
  | .Large l, s => .ok (.Large (l ++ s))

/-- The unwrapped builder write: what the unchecked unwraps at the call sites
of write_str produce. -/
def write (b : FlexStrBuilder) (s : Str) : FlexStrBuilder :=
  match b.write_str s with
  | .ok b2 => b2
  | .error _ => b

/-- Modelled from the spec: write_char encodes the char as UTF-8 and writes
the resulting bytes. -/
def write_char (b : FlexStrBuilder) (c : Nat) : Except Unit FlexStrBuilder :=
  b.write_str (utf8Encode c)

/-- Writing a sequence of fragments, threading the fmt::Result as
fmt::Write::write_fmt does over the pieces of a format-arguments value. -/
def write_all (b : FlexStrBuilder) (parts : List Str) : Except Unit FlexStrBuilder :=
  parts.foldlM write_str b

/-- The byte content accumulated in the builder, the abstraction used by the
correctness lemmas. -/
def content : FlexStrBuilder → Str
  | .Small buf => buf
  | .Regular buf => buf
  | .Large s => s

end FlexStrBuilder

namespace FlexStr

variable {T : Type}

/-- Modelled from the spec: to_flex for the Regular growable buffer, used by
builder finalization (src/src/traits.rs is absent; spec section 4.4 Finalize
sends Regular to Heap via the storage backend's from-data operation). -/
def regularToFlex [Storage T] (buf : Str) : FlexStr T :=
  .Heap (Storage.fromStr buf)

/-- From FlexStrBuilder for FlexStr (lib.rs lines 535-553): Small finalizes
to an Inlined value built from the buffer's array and length; Regular
finalizes through to_flex on the grown buffer; Large finalizes through the
From String conversion. -/
def into_flex [Storage T] : FlexStrBuilder → FlexStr T
  | .Small buf => .Inlined buf
  | .Regular buf => regularToFlex buf
  | .Large s => fromString s

/-- The concat helper (lib.rs lines 432-443): a builder with the combined
capacity, two unchecked-unwrapped writes, then finalization. -/
def concat [Storage T] (s1 s2 : Str) : FlexStr T :=
  into_flex (((FlexStrBuilder.with_capacity (s1.length + s2.length)).write s1).write s2)

/-- The concat helper with the fmt::Result threaded instead of unwrapped,
used to state that the unchecked unwraps never hit the error branch. -/
def concatChecked [Storage T] (s1 s2 : Str) : Except Unit (FlexStr T) := do
  let b := FlexStrBuilder.with_capacity (s1.length + s2.length)
  let b ← b.write_str s1
  let b ← b.write_str s2
  pure (into_flex b)

/-- Add of a str to a FlexStr (lib.rs lines 463-475): a Static left operand
rebuilds through concat; an Inlined left operand first attempts the in-place
inline concatenation and falls back to concat; a Heap left operand rebuilds
through concat from its view. -/
def add [Storage T] (a : FlexStr T) (rhs : Str) : FlexStr T :=
  match a with
  | .Static s => concat s rhs
  | .Inlined s =>
    match InlineFlexStr.try_concat s rhs with
    | some s2 => .Inlined s2
    | none => concat s rhs
  | .Heap h => concat (Storage.toStr h) rhs

/-- from_iter_str (lib.rs lines 642-660): a fresh builder, one
unchecked-unwrapped write_str per item, then finalization. -/
def from_iter_str [Storage T] (items : List Str) : FlexStr T :=
  into_flex (items.foldl FlexStrBuilder.write FlexStrBuilder.new)

/-- from_iter_char (lib.rs lines 662-679): a builder sized by the iterator's
lower size hint (the length of the modelled list), one unchecked-unwrapped
write_char per item, then finalization. -/
def from_iter_char [Storage T] (chars : List Nat) : FlexStr T :=
  into_flex (chars.foldl (fun b c => b.write (utf8Encode c))
    (FlexStrBuilder.with_capacity chars.length))

/-- flex_fmt (lib.rs lines 855-867): a fresh builder, write_fmt of the
format-arguments fragments with the expect on its result, then
finalization. -/
def flex_fmt [Storage T] (parts : List Str) : FlexStr T :=
  into_flex (parts.foldl FlexStrBuilder.write FlexStrBuilder.new)

/-- flex_fmt with the fmt::Result threaded instead of discharged by expect. -/
def flex_fmtChecked [Storage T] (parts : List Str) : Except Unit (FlexStr T) := do
  let b ← FlexStrBuilder.new.write_all parts
  pure (into_flex b)

/-- From char for FlexStr (lib.rs lines 622-638): encode the char as UTF-8
into a four-byte scratch buffer and inline it, the unchecked unwrap relying
on four bytes always fitting the inline capacity. -/
def from_char (c : Nat) : Except Str (FlexStr T) :=
  try_inline (utf8Encode c)

end FlexStr

/-- Modelled from the spec: the four-variant core representation of the
generated string types (spec section 3; the crate file holding it is absent
from the sources, only the generated is_borrow users in
src/generate/src/impls.rs refer to it): Static, Inlined, Heap, plus a
Borrowed reference tied to an explicit lifetime. -/
inductive FlexStrRef (T : Type) where
  | Static (s : Str)
  | Inlined (s : Str)
  | Heap (h : T)
  | Borrowed (s : Str)

namespace FlexStrRef

variable {T : Type}

/-- Discriminant test for the Static variant of the four-variant type. -/
def is_static : FlexStrRef T → Bool
  | .Static _ => true
  | _ => false

/-- Discriminant test for the Inlined variant of the four-variant type. -/
def is_inline : FlexStrRef T → Bool
  | .Inlined _ => true
  | _ => false

/-- Discriminant test for the Heap variant of the four-variant type. -/
def is_heap : FlexStrRef T → Bool
  | .Heap _ => true
  | _ => false

/-- Discriminant test for the Borrowed variant of the four-variant type. -/
def is_borrow : FlexStrRef T → Bool
  | .Borrowed _ => true
  | _ => false

end FlexStrRef

/-! ## Supporting lemmas -/

/-- The builder write never takes the error branch: write_str is ok of the
unwrapped write, in every state. -/
theorem write_str_eq_ok (b : FlexStrBuilder) (s : Str) :
    b.write_str s = .ok (b.write s) := by
  cases b with
  | Small buf =>
    cases h : InlineFlexStr.try_concat buf s <;>
      simp [FlexStrBuilder.write_str, FlexStrBuilder.write, h]
  | Regular buf => rfl
  | Large l => rfl

/-- A builder write appends the written bytes to the accumulated content. -/
theorem content_write (b : FlexStrBuilder) (s : Str) :
    (b.write s).content = b.content ++ s := by
  cases b with
  | Small buf =>
    by_cases h : buf.length + s.length ≤ inlineCapacity <;>
      simp [FlexStrBuilder.write, FlexStrBuilder.write_str, InlineFlexStr.try_concat, h,
        FlexStrBuilder.content]
  | Regular buf => rfl
  | Large l => rfl

/-- Writing a whole fragment list never takes the error branch either: it is
ok of the fold of the unwrapped writes. -/
theorem write_all_eq_ok (b : FlexStrBuilder) (parts : List Str) :
    b.write_all parts = .ok (parts.foldl FlexStrBuilder.write b) := by
  induction parts generalizing b with
  | nil => rfl
  | cons p ps ih =>
    show (b.write_str p >>= fun b2 => FlexStrBuilder.write_all b2 ps) = _
    rw [write_str_eq_ok]
    show FlexStrBuilder.write_all (b.write p) ps = _
    rw [ih]
    rfl

/-- Finalizing a builder of any state yields a value whose view is the
accumulated content. -/
theorem deref_into_flex {T : Type} [Storage T] (b : FlexStrBuilder) :
    (FlexStr.into_flex b : FlexStr T).deref = b.content := by
  cases b with
  | Small buf => rfl
  | Regular buf =>
    simp [FlexStr.into_flex, FlexStr.regularToFlex, FlexStr.deref,
      Storage.toStr_fromStr, FlexStrBuilder.content]
  | Large s =>
    by_cases h : s.length ≤ inlineCapacity <;>
      simp [FlexStr.into_flex, FlexStr.fromString, h, FlexStr.deref,
        Storage.toStr_fromStr, FlexStrBuilder.content]

/-- Closed form of the concat helper: an inlined value when the combined
length fits the inline capacity, a heap value otherwise, always holding the
concatenated bytes. -/
theorem concat_eq {T : Type} [Storage T] (s1 s2 : Str) :
    (FlexStr.concat s1 s2 : FlexStr T) =
      if s1.length + s2.length ≤ inlineCapacity then .Inlined (s1 ++ s2)
      else .Heap (Storage.fromStr (s1 ++ s2)) := by
  by_cases h : s1.length + s2.length ≤ inlineCapacity
  · have h1 : s1.length ≤ inlineCapacity :=
      le_trans (Nat.le_add_right _ _) h
    simp [FlexStr.concat, FlexStrBuilder.with_capacity, h, h1, FlexStrBuilder.write,
      FlexStrBuilder.write_str, InlineFlexStr.try_concat, FlexStr.into_flex]
  · simp [FlexStr.concat, FlexStrBuilder.with_capacity, h, FlexStrBuilder.write,
      FlexStrBuilder.write_str, FlexStr.into_flex, FlexStr.regularToFlex]

/-- Closed form of Add: the result holds the concatenated bytes, inlined when
they fit the inline capacity and heap otherwise, whatever the left operand's
variant. -/
theorem add_eq {T : Type} [Storage T] (a : FlexStr T) (b : Str) :
    FlexStr.add a b =
      if a.deref.length + b.length ≤ inlineCapacity then .Inlined (a.deref ++ b)
      else .Heap (Storage.fromStr (a.deref ++ b)) := by
  cases a with
  | Static s => simpa [FlexStr.add, FlexStr.deref] using concat_eq (T := T) s b
  | Inlined s =>
    by_cases h : s.length + b.length ≤ inlineCapacity <;>
      simp [FlexStr.add, InlineFlexStr.try_concat, h, FlexStr.deref, concat_eq]
  | Heap hh => simpa [FlexStr.add, FlexStr.deref] using concat_eq (T := T) (Storage.toStr hh) b

/-- The content of a freshly sized builder is empty in both starting
states. -/
theorem content_with_capacity (cap : Nat) :
    (FlexStrBuilder.with_capacity cap).content = [] := by
  by_cases h : cap ≤ inlineCapacity <;>
    simp [FlexStrBuilder.with_capacity, h, FlexStrBuilder.content]

/-- Folding the unwrapped write over a fragment list appends the fragments'
join to the content. -/
theorem fold_write_content (init : FlexStrBuilder) (items : List Str) :
    (items.foldl FlexStrBuilder.write init).content = init.content ++ items.flatten := by
  induction items generalizing init with
  | nil => simp
  | cons p ps ih => simp [List.foldl, ih, content_write, List.append_assoc]

/-- A UTF-8 encoded scalar value occupies at most four bytes. -/
theorem utf8Encode_length_le (n : Nat) : (utf8Encode n).length ≤ 4 := by
  unfold utf8Encode
  split
  · simp
  · split
    · simp
    · split <;> simp

/-! ## The claims -/

/-- C1 (counterexample): adding to a Static left operand whose combined
length fits the inline capacity yields an inlined value, not a heap value as
the claim's otherwise-branch demands: from_static "ab" + "cd" is inlined. -/
theorem add_static_short_is_inlined_not_heap :
    (FlexStr.add (FlexStr.from_static [97, 98] : FlexStr RcStr) [99, 100]).is_heap = false ∧
    (FlexStr.add (FlexStr.from_static [97, 98] : FlexStr RcStr) [99, 100]).is_inlined = true := by
  decide

/-- C1 (amended): for every left operand and right-hand string, the result of
Add holds the literal concatenation of the views; it is inlined exactly when
the combined byte length is at most the inline capacity, whatever the left
operand's variant, and a heap value otherwise. -/
theorem add_spec (T : Type) [Storage T] (a : FlexStr T) (b : Str) :
    (FlexStr.add a b).deref = a.deref ++ b ∧
    (FlexStr.add a b).is_inlined = decide (a.deref.length + b.length ≤ inlineCapacity) ∧
    (FlexStr.add a b).is_heap = !decide (a.deref.length + b.length ≤ inlineCapacity) := by
  by_cases h : a.deref.length + b.length ≤ inlineCapacity
  · rw [add_eq, if_pos h]
    refine ⟨rfl, ?_, ?_⟩ <;> simp [FlexStr.is_inlined, FlexStr.is_heap, h]
  · rw [add_eq, if_neg h]
    refine ⟨?_, ?_, ?_⟩
    · simp [FlexStr.deref, Storage.toStr_fromStr]
    · simp [FlexStr.is_inlined, h]
    · simp [FlexStr.is_heap, h]

/-- C2 (counterexample): converting an empty owned String through From
String yields an inlined value (the empty string fits the inline buffer),
not a static one. -/
theorem fromString_empty_not_static :
    (FlexStr.fromString [] : FlexStr RcStr).is_static = false ∧
    (FlexStr.fromString [] : FlexStr RcStr).is_inlined = true := by
  decide

/-- C2 (amended): the general from-reference entry point from_ref maps the
empty string to the shared empty Static singleton for every backend, while
the From String conversion of the main crate maps the empty string to an
inlined value; both views are empty. -/
theorem from_ref_empty_static (T : Type) [Storage T] :
    (FlexStr.from_ref [] : FlexStr T).is_static = true ∧
    (FlexStr.from_ref [] : FlexStr T).deref = [] ∧
    (FlexStr.fromString [] : FlexStr T).is_inlined = true ∧
    (FlexStr.fromString [] : FlexStr T).deref = [] := by
  refine ⟨rfl, rfl, ?_, ?_⟩ <;>
    simp [FlexStr.fromString, FlexStr.is_inlined, FlexStr.deref, inlineCapacity]

/-- C3 (counterexample): finalizing a Large builder holding a short owned
string goes through the From String conversion, which inlines it: the result
is not a heap value. -/
theorem into_flex_large_short_not_heap :
    (FlexStr.into_flex (FlexStrBuilder.Large [104, 105]) : FlexStr RcStr).is_heap = false ∧
    (FlexStr.into_flex (FlexStrBuilder.Large [104, 105]) : FlexStr RcStr).is_inlined = true := by
  decide

/-- C3 (amended): builder finalization is total on the three states and maps
Small to an Inlined value and Regular to a Heap value via the storage
backend's from-data operation; Large finalizes through the From String
conversion, yielding a Heap value exactly when its content exceeds the
inline capacity and an Inlined value otherwise. -/
theorem into_flex_spec (T : Type) [Storage T] (buf s : Str) :
    (FlexStr.into_flex (FlexStrBuilder.Small buf) : FlexStr T).is_inlined = true ∧
    (FlexStr.into_flex (FlexStrBuilder.Regular buf) : FlexStr T).is_heap = true ∧
    (FlexStr.into_flex (FlexStrBuilder.Large s) : FlexStr T).is_heap
      = !decide (s.length ≤ inlineCapacity) ∧
    (FlexStr.into_flex (FlexStrBuilder.Large s) : FlexStr T).is_inlined
      = decide (s.length ≤ inlineCapacity) := by
  refine ⟨rfl, rfl, ?_, ?_⟩ <;>
    by_cases h : s.length ≤ inlineCapacity <;>
      simp [FlexStr.into_flex, FlexStr.fromString, h, FlexStr.is_inlined, FlexStr.is_heap]

/-- C4: try_inline succeeds exactly when the byte length is at most the
inline capacity; on success the result is inlined and its view equals the
input; on failure the original input comes back unchanged in the error
branch. -/
theorem try_inline_spec (T : Type) [Storage T] (s : Str) :
    (s.length ≤ inlineCapacity →
      (FlexStr.try_inline s : Except Str (FlexStr T)) = .ok (.Inlined s) ∧
      (FlexStr.Inlined s : FlexStr T).is_inlined = true ∧
      (FlexStr.Inlined s : FlexStr T).deref = s) ∧
    (inlineCapacity < s.length →
      (FlexStr.try_inline s : Except Str (FlexStr T)) = .error s) := by
  constructor
  · intro h
    exact ⟨by simp [FlexStr.try_inline, InlineFlexStr.try_new, h], rfl, rfl⟩
  · intro h
    simp [FlexStr.try_inline, InlineFlexStr.try_new, Nat.not_le.mpr h]

/-- C5: equality and hashing go through the semantic view, never through the
discriminant: across any two backends, the boolean equality holds exactly
when the views are equal, and values with identical views compare equal and
hash identically under every hasher. -/
theorem eq_hash_via_view (T T2 : Type) [Storage T] [Storage T2]
    (a : FlexStr T) (b : FlexStr T2) (hasher : Str → Nat) :
    (FlexStr.beqFlex a b = true ↔ a.deref = b.deref) ∧
    (a.deref = b.deref →
      FlexStr.beqFlex a b = true ∧
      FlexStr.hashWith hasher a = FlexStr.hashWith hasher b) := by
  constructor
  · simp [FlexStr.beqFlex]
  · intro h
    simp [FlexStr.beqFlex, FlexStr.hashWith, h]

/-- C6: clone is observably equal to the original under semantic-view
equality, for every variant and every backend. -/
theorem clone_observably_eq (T : Type) [Storage T] (x : FlexStr T) :
    (FlexStr.clone x).deref = x.deref ∧
    FlexStr.beqFlex (FlexStr.clone x) x = true := by
  cases x <;>
    simp [FlexStr.clone, FlexStr.deref, FlexStr.beqFlex, Storage.toStr_clone]

/-- C7: the discriminant tests are mutually exclusive and exactly one holds
per value: on the three-variant core type exactly one of is_static,
is_inlined and is_heap is true, and on the four-variant lifetime-carrying
type exactly one of is_static, is_inline, is_heap and is_borrow is true.
Since this holds of every value of the type, every operation producing a
value preserves it. -/
theorem discriminants_exactly_one (T : Type) (x : FlexStr T) (y : FlexStrRef T) :
    x.is_static.toNat + x.is_inlined.toNat + x.is_heap.toNat = 1 ∧
    y.is_static.toNat + y.is_inline.toNat + y.is_heap.toNat + y.is_borrow.toNat = 1 := by
  constructor
  · cases x <;> rfl
  · cases y <;> rfl

/-- C8: formatting-trait writes into the builder never return an error: a
single write always returns ok, concat's two unchecked-unwrapped writes
always return ok of the value concat builds, writing any fragment sequence
returns ok, and flex_fmt's expect never observes an error. -/
theorem builder_write_never_fails (T : Type) [Storage T] :
    (∀ (b : FlexStrBuilder) (s : Str), b.write_str s = .ok (b.write s)) ∧
    (∀ s1 s2 : Str,
      (FlexStr.concatChecked s1 s2 : Except Unit (FlexStr T))
        = .ok (FlexStr.concat s1 s2)) ∧
    (∀ (b : FlexStrBuilder) (parts : List Str),
      b.write_all parts = .ok (parts.foldl FlexStrBuilder.write b)) ∧
    (∀ parts : List Str,
      (FlexStr.flex_fmtChecked parts : Except Unit (FlexStr T))
        = .ok (FlexStr.flex_fmt parts)) := by
  refine ⟨write_str_eq_ok, ?_, write_all_eq_ok, ?_⟩
  · intro s1 s2
    show ((FlexStrBuilder.with_capacity (s1.length + s2.length)).write_str s1 >>= _) = _
    rw [write_str_eq_ok]
    show (((FlexStrBuilder.with_capacity (s1.length + s2.length)).write s1).write_str s2 >>= _) = _
    rw [write_str_eq_ok]
    rfl
  · intro parts
    show (FlexStrBuilder.new.write_all parts >>= _) = _
    rw [write_all_eq_ok]
    rfl

/-- C9: converting a char always succeeds: its UTF-8 encoding is at most four
bytes, which always fits the inline capacity, so the unchecked unwrap of
try_inline is safe; the result is inlined and its view is the UTF-8 encoding
of the char. -/
theorem from_char_spec (T : Type) [Storage T] (c : Nat) :
    (utf8Encode c).length ≤ 4 ∧
    (FlexStr.from_char c : Except Str (FlexStr T)) = .ok (.Inlined (utf8Encode c)) ∧
    (FlexStr.Inlined (utf8Encode c) : FlexStr T).is_inlined = true ∧
    (FlexStr.Inlined (utf8Encode c) : FlexStr T).deref = utf8Encode c := by
  have h4 := utf8Encode_length_le c
  have hC : (utf8Encode c).length ≤ inlineCapacity :=
    le_trans h4 (by decide)
  exact ⟨h4, by simp [FlexStr.from_char, FlexStr.try_inline, InlineFlexStr.try_new, hC],
    rfl, rfl⟩

/-- C10: collecting a finite iterator of string-like items yields a value
whose view is the concatenation of all items in iteration order, both for
the write_str-based collection of str-like items and for the
write_char-based collection of chars; the empty iterator yields the empty
string. -/
theorem from_iter_spec (T : Type) [Storage T] (items : List Str) (chars : List Nat) :
    (FlexStr.from_iter_str items : FlexStr T).deref = items.flatten ∧
    (FlexStr.from_iter_char chars : FlexStr T).deref = (chars.map utf8Encode).flatten ∧
    (FlexStr.from_iter_str [] : FlexStr T).deref = [] := by
  refine ⟨?_, ?_, ?_⟩
  · rw [FlexStr.from_iter_str, deref_into_flex, fold_write_content]
    rfl
  · rw [FlexStr.from_iter_char, deref_into_flex, ← List.foldl_map,
      fold_write_content, content_with_capacity]
    rfl
  · rw [FlexStr.from_iter_str, deref_into_flex, fold_write_content]
    rfl

end Stringy
